import Mathlib

/-!
# Verification of the Help Center RAG service

A shallow embedding of the repository (`rag_engine.py`, `document_processor.py`,
`vector_store.py`, `main.py`, `exceptions.py`, `data_ingestion.py`, `config.py`)
together with proofs of its specified properties.

Modelling conventions:
* Python dictionaries with a known key set become structures; a key that a code
  path reads with `dict.get(key, default)` and that may be absent is an `Option`
  field (`none` = key absent).
* Raised exceptions become `Except PyExn`; built-in Python exceptions and the
  classes of `exceptions.py` are the constructors of `PyExn`.
* Calls to external providers (embedding API, LLM, vector index) become function
  parameters, and each embedded operation additionally returns the list of
  provider calls it performed, in order (its call trace).
* Similarity scores and embedding coordinates are only ever copied, never
  computed with, so they are represented by `Rat`.
-/

namespace RAG

/-- Python exceptions that appear in the code paths modelled here.
`valueError` and `keyError` are Python built-ins; `vectorStoreException`
through `configurationException` are the classes of `exceptions.py`, all
deriving from `RAGSystemException`; `providerError` stands for an arbitrary
exception raised inside a third-party provider call. -/
inductive PyExn where
  | valueError (msg : String)
  | keyError (key : String)
  | vectorStoreException (msg : String)
  | dataIngestionException (msg : String)
  | embeddingException (msg : String)
  | llmException (msg : String)
  | configurationException (msg : String)
  | providerError (msg : String)
deriving Repr, DecidableEq

/-- Whether the exception is an instance of `RAGSystemException`, the base
class of the taxonomy in `exceptions.py` (Python built-ins and provider
exceptions are not). -/
def PyExn.isRAGSystemException : PyExn → Bool
  | .valueError _ => false
  | .keyError _ => false
  | .providerError _ => false
  | _ => true

/-- Similarity scores / vector coordinates (numeric values that the embedded
code only copies around). -/
abbrev Score := Rat

/-- An embedding vector. -/
abbrev Embedding := List Score

/-- A retrieved document, as the Python dict built by `VectorStore.search`
(`{id, score, text, title, url, metadata}`).  `RAGEngine._extract_sources`
reads `url`, `title` and `score` with `dict.get` and a default, so the fields
are `Option`s: `none` models an absent key. -/
structure RetrievedDoc where
  id : Option String := none
  score : Option Score := none
  text : Option String := none
  title : Option String := none
  url : Option String := none
  metadata : Option (List (String × String)) := none
deriving Repr, DecidableEq

/-- A source surfaced to the end user (`rag_engine.py`, `_extract_sources`):
`{title, url, relevance_score}`. -/
structure Source where
  title : String
  url : String
  relevance_score : Score
deriving Repr, DecidableEq

/-- The dict appended by `_extract_sources` for a kept document:
`{"title": doc.get("title", ""), "url": url, "relevance_score": doc.get("score", 0.0)}`. -/
def mkSource (doc : RetrievedDoc) : Source :=
  { title := doc.title.getD ""
    url := doc.url.getD ""
    relevance_score := doc.score.getD 0 }

/-- The loop of `RAGEngine._extract_sources` (rag_engine.py lines 227-239):
`seen` is the `seen_urls` set, represented as the list of urls added so far. -/
def extractSourcesLoop : List RetrievedDoc → List String → List Source
  | [], _ => []
  | doc :: docs, seen =>
    let url := doc.url.getD ""
    if url ≠ "" ∧ url ∉ seen then
      mkSource doc :: extractSourcesLoop docs (url :: seen)
    else
      extractSourcesLoop docs seen

/-- Model of `RAGEngine._extract_sources` (rag_engine.py lines 217-240): deduplicate
retrieved documents by url, keeping first occurrences. -/
def extract_sources (docs : List RetrievedDoc) : List Source :=
  extractSourcesLoop docs []

/-- Modelled from the spec for claim C1 (refinement reference, not from the
source): keep, in order, the first occurrence of each distinct non-empty url,
dropping documents with an empty or missing url. -/
def dedupByUrlFirst : List RetrievedDoc → List RetrievedDoc
  | [] => []
  | doc :: docs =>
    if doc.url.getD "" = "" then
      dedupByUrlFirst docs
    else
      doc :: dedupByUrlFirst (docs.filter (fun d => d.url.getD "" ≠ doc.url.getD ""))
termination_by l => l.length
decreasing_by
  · simp only [List.length_cons]; omega
  · exact Nat.lt_succ_of_le (List.length_filter_le _ _)

lemma filter_notMem_cons (docs : List RetrievedDoc) (u : String) (seen : List String) :
    (docs.filter (fun d => d.url.getD "" ∉ seen)).filter (fun d => d.url.getD "" ≠ u)
      = docs.filter (fun d => d.url.getD "" ∉ u :: seen) := by
  rw [List.filter_filter]
  apply List.filter_congr
  intro d _
  by_cases h1 : d.url.getD "" = u <;> by_cases h2 : d.url.getD "" ∈ seen <;>
    simp [h1, h2]

lemma extractSourcesLoop_eq (docs : List RetrievedDoc) (seen : List String) :
    extractSourcesLoop docs seen =
      (dedupByUrlFirst (docs.filter (fun d => d.url.getD "" ∉ seen))).map mkSource := by
  induction docs generalizing seen with
  | nil => simp [extractSourcesLoop, dedupByUrlFirst]
  | cons doc docs ih =>
    have hloop : extractSourcesLoop (doc :: docs) seen =
        if doc.url.getD "" ≠ "" ∧ doc.url.getD "" ∉ seen then
          mkSource doc :: extractSourcesLoop docs (doc.url.getD "" :: seen)
        else extractSourcesLoop docs seen := rfl
    by_cases hseen : doc.url.getD "" ∈ seen
    · have hfilter : (doc :: docs).filter (fun d => d.url.getD "" ∉ seen)
          = docs.filter (fun d => d.url.getD "" ∉ seen) := by
        simp [List.filter_cons, hseen]
      rw [hloop, if_neg (by simp [hseen]), hfilter, ih]
    · have hfilter : (doc :: docs).filter (fun d => d.url.getD "" ∉ seen)
          = doc :: docs.filter (fun d => d.url.getD "" ∉ seen) := by
        simp [List.filter_cons, hseen]
      by_cases hurl : doc.url.getD "" = ""
      · rw [hloop, if_neg (by simp [hurl]), hfilter]
        rw [show dedupByUrlFirst (doc :: docs.filter (fun d => d.url.getD "" ∉ seen))
              = dedupByUrlFirst (docs.filter (fun d => d.url.getD "" ∉ seen)) by
            simp [dedupByUrlFirst, hurl]]
        exact ih seen
      · rw [hloop, if_pos ⟨hurl, hseen⟩, hfilter]
        rw [show dedupByUrlFirst (doc :: docs.filter (fun d => d.url.getD "" ∉ seen))
              = doc :: dedupByUrlFirst ((docs.filter (fun d => d.url.getD "" ∉ seen)).filter
                  (fun d => d.url.getD "" ≠ doc.url.getD "")) by
            simp [dedupByUrlFirst, hurl]]
        rw [filter_notMem_cons, List.map_cons, ih]

/-- C1: `_extract_sources` returns the retrieved documents deduplicated by url
in first-seen order — exactly the first occurrence of each distinct non-empty
url is kept, each kept source carries the title, url and score of that occurrence
(as `relevance_score`), and documents with an empty or missing url are dropped.
In particular, for documents with urls [A, A, B, ""] the result is exactly
[A, B] with the score of the first A occurrence. -/
theorem c1_extract_sources_dedup :
    (∀ docs : List RetrievedDoc,
        extract_sources docs = (dedupByUrlFirst docs).map mkSource) ∧
    extract_sources
        [ { title := some "A", url := some "https://a", score := some 9 },
          { title := some "A dup", url := some "https://a", score := some 8 },
          { title := some "B", url := some "https://b", score := some 7 },
          { title := some "no url", url := some "", score := some 6 } ]
      = [ { title := "A", url := "https://a", relevance_score := 9 },
          { title := "B", url := "https://b", relevance_score := 7 } ] := by
  constructor
  · intro docs
    have h := extractSourcesLoop_eq docs []
    simpa [extract_sources] using h
  · decide

/-- A Help Center article (`data_ingestion.py`, dataclass `Article`):
url, title, raw content and a string-to-string metadata mapping. -/
structure Article where
  url : String
  title : String
  content : String
  metadata : List (String × String)
deriving Repr, DecidableEq

/-- The metadata dict attached to a chunk by `DocumentProcessor.chunk_article`:
`{**article.metadata, "chunk_index": i, "total_chunks": n, "chunk_id": ...}`.
The inherited article entries are kept verbatim in `base`. -/
structure ChunkMeta where
  base : List (String × String)
  chunk_index : Nat
  total_chunks : Nat
  chunk_id : String
deriving Repr, DecidableEq

/-- A chunk dict (`document_processor.py`): text and metadata; the
`embedding` key is added later by `generate_embeddings` (`none` = absent). -/
structure Chunk where
  text : String
  metadata : ChunkMeta
  embedding : Option Embedding := none
deriving Repr, DecidableEq

/-- The chunk id f-string of `chunk_article`: `f"{article.url}#chunk-{i}"`. -/
def chunkId (url : String) (i : Nat) : String :=
  url ++ "#chunk-" ++ toString i

/-- Model of `DocumentProcessor.chunk_article` (document_processor.py lines 65-104).
The library text splitter (`RecursiveCharacterTextSplitter.split_text`) is an
external collaborator and is passed in as `splitText`. -/
def chunk_article (splitText : String → List String) (article : Article) : List Chunk :=
  let fullText := "# " ++ article.title ++ "\n\n" ++ article.content
  let pieces := splitText fullText
  pieces.enum.map fun p =>
    { text := p.2
      metadata :=
        { base := article.metadata
          chunk_index := p.1
          total_chunks := pieces.length
          chunk_id := chunkId article.url p.1 } }

/-- Model of `DocumentProcessor.chunk_articles` (document_processor.py lines 106-127):
chunk every article and concatenate the results in order. -/
def chunk_articles (splitText : String → List String) (articles : List Article) : List Chunk :=
  articles.flatMap (chunk_article splitText)

/-! Decimal representations (`Nat.toDigits`, used by `toString` on `Nat`)
consist of digit characters only and are injective; both facts feed the
uniqueness of `chunkId`. -/

lemma digitChar_isDigit : ∀ k, k < 10 → (Nat.digitChar k).isDigit = true := by decide

lemma digitChar_toNat : ∀ k, k < 10 → (Nat.digitChar k).toNat = 48 + k := by decide

lemma toDigitsCore_succ (f n : Nat) (ds : List Char) :
    Nat.toDigitsCore 10 (f + 1) n ds =
      if n / 10 = 0 then Nat.digitChar (n % 10) :: ds
      else Nat.toDigitsCore 10 f (n / 10) (Nat.digitChar (n % 10) :: ds) := rfl

lemma toDigitsCore_isDigit (f : Nat) :
    ∀ (n : Nat) (ds : List Char), (∀ c ∈ ds, c.isDigit = true) →
      ∀ c ∈ Nat.toDigitsCore 10 f n ds, c.isDigit = true := by
  induction f with
  | zero => intro n ds hds c hc; exact hds c hc
  | succ f ih =>
    intro n ds hds c hc
    rw [toDigitsCore_succ] at hc
    have hdigit : (Nat.digitChar (n % 10)).isDigit = true :=
      digitChar_isDigit _ (Nat.mod_lt n (by norm_num))
    by_cases h0 : n / 10 = 0
    · rw [if_pos h0] at hc
      rcases List.mem_cons.mp hc with h | h
      · exact h ▸ hdigit
      · exact hds c h
    · rw [if_neg h0] at hc
      refine ih (n / 10) _ ?_ c hc
      intro c' hc'
      rcases List.mem_cons.mp hc' with h | h
      · exact h ▸ hdigit
      · exact hds c' h

lemma toDigitsCore_append (f : Nat) :
    ∀ (n : Nat) (ds : List Char),
      Nat.toDigitsCore 10 f n ds = Nat.toDigitsCore 10 f n [] ++ ds := by
  induction f with
  | zero => intro n ds; rfl
  | succ f ih =>
    intro n ds
    rw [toDigitsCore_succ, toDigitsCore_succ]
    by_cases h : n / 10 = 0
    · simp [h]
    · rw [if_neg h, if_neg h, ih (n / 10) (Nat.digitChar (n % 10) :: ds),
        ih (n / 10) [Nat.digitChar (n % 10)], List.append_assoc, List.singleton_append]

/-- The numeric value of a list of decimal digit characters. -/
def decListVal (l : List Char) : Nat :=
  l.foldl (fun a c => 10 * a + (c.toNat - 48)) 0

lemma toDigitsCore_val (f : Nat) :
    ∀ n, n < f → decListVal (Nat.toDigitsCore 10 f n []) = n := by
  induction f with
  | zero => intro n h; exact absurd h (Nat.not_lt_zero n)
  | succ f ih =>
    intro n h
    rw [toDigitsCore_succ]
    by_cases h0 : n / 10 = 0
    · rw [if_pos h0]
      have h10 : n < 10 := (Nat.div_eq_zero_iff (by norm_num)).mp h0
      simp only [decListVal, List.foldl_cons, List.foldl_nil, Nat.mul_zero, Nat.zero_add]
      rw [digitChar_toNat (n % 10) (Nat.mod_lt n (by norm_num))]
      rw [Nat.mod_eq_of_lt h10]
      omega
    · rw [if_neg h0, toDigitsCore_append]
      have hpos : 0 < n := by
        rcases Nat.eq_zero_or_pos n with h' | h'
        · exact absurd (by simp [h']) h0
        · exact h'
      have hlt : n / 10 < f := lt_of_lt_of_le (Nat.div_lt_self hpos (by norm_num)) (by omega)
      simp only [decListVal, List.foldl_append, List.foldl_cons, List.foldl_nil]
      have := ih (n / 10) hlt
      simp only [decListVal] at this
      rw [this, digitChar_toNat (n % 10) (Nat.mod_lt n (by norm_num))]
      have := Nat.div_add_mod n 10
      omega

lemma natRepr_inj {m n : Nat} (h : Nat.repr m = Nat.repr n) : m = n := by
  have hd : Nat.toDigits 10 m = Nat.toDigits 10 n := congrArg String.data h
  have hm := toDigitsCore_val (m + 1) m (Nat.lt_succ_self m)
  have hn := toDigitsCore_val (n + 1) n (Nat.lt_succ_self n)
  have hmn : decListVal (Nat.toDigits 10 m) = decListVal (Nat.toDigits 10 n) := by rw [hd]
  rw [show Nat.toDigits 10 m = Nat.toDigitsCore 10 (m + 1) m [] from rfl] at hmn
  rw [show Nat.toDigits 10 n = Nat.toDigitsCore 10 (n + 1) n [] from rfl] at hmn
  rw [hm, hn] at hmn
  exact hmn

lemma hash_not_mem_natRepr (n : Nat) : '#' ∉ (Nat.repr n).data := by
  intro hmem
  have hdig : ('#').isDigit = true :=
    toDigitsCore_isDigit (n + 1) n [] (by simp) '#' hmem
  exact absurd hdig (by decide)

lemma append_sep_inj {rest : List Char} (hrest : '#' ∉ rest) :
    ∀ (a c b d : List Char), '#' ∉ b → '#' ∉ d →
      a ++ ('#' :: rest) ++ b = c ++ ('#' :: rest) ++ d → a = c ∧ b = d := by
  intro a
  induction a with
  | nil =>
    intro c b d hb hd h
    cases c with
    | nil =>
      simp only [List.nil_append, List.cons_append, List.cons.injEq, true_and] at h
      exact ⟨rfl, List.append_cancel_left h⟩
    | cons c0 cs =>
      exfalso
      simp only [List.nil_append, List.cons_append, List.append_assoc,
        List.cons.injEq] at h
      obtain ⟨_, htail⟩ := h
      have hmem : '#' ∈ rest ++ b := by
        rw [htail]
        simp
      rcases List.mem_append.mp hmem with h1 | h1
      · exact hrest h1
      · exact hb h1
  | cons a0 as ih =>
    intro c b d hb hd h
    cases c with
    | nil =>
      exfalso
      simp only [List.nil_append, List.cons_append, List.append_assoc,
        List.cons.injEq] at h
      obtain ⟨_, htail⟩ := h
      have hmem : '#' ∈ rest ++ d := by
        rw [← htail]
        simp
      rcases List.mem_append.mp hmem with h1 | h1
      · exact hrest h1
      · exact hd h1
    | cons c0 cs =>
      simp only [List.cons_append, List.cons.injEq] at h
      obtain ⟨he, htail⟩ := h
      obtain ⟨h1, h2⟩ := ih cs b d hb hd htail
      exact ⟨by rw [he, h1], h2⟩

lemma chunkId_inj {u v : String} {i j : Nat} (h : chunkId u i = chunkId v j) :
    u = v ∧ i = j := by
  have hdata := congrArg String.data h
  simp only [chunkId, String.data_append] at hdata
  have hni : '#' ∉ (toString i).data := hash_not_mem_natRepr i
  have hnj : '#' ∉ (toString j).data := hash_not_mem_natRepr j
  obtain ⟨hu, hrep⟩ :=
    append_sep_inj (by decide) u.data v.data (toString i).data (toString j).data
      hni hnj hdata
  exact ⟨String.ext hu, natRepr_inj (String.ext hrep)⟩

lemma chunk_article_ids (splitText : String → List String) (a : Article) :
    (chunk_article splitText a).map (fun c => c.metadata.chunk_id)
      = (List.range (splitText ("# " ++ a.title ++ "\n\n" ++ a.content)).length).map
          (chunkId a.url) := by
  simp only [chunk_article, List.map_map]
  rw [← List.enum_map_fst (splitText ("# " ++ a.title ++ "\n\n" ++ a.content)),
    List.map_map]
  rfl

/-- Two short articles with distinct urls, used to instantiate hypotheses. -/
def demoArticle1 : Article :=
  { url := "https://h/a1", title := "T1", content := "body one",
    metadata := [("title", "T1"), ("url", "https://h/a1"), ("source", "hc")] }

/-- A second demo article with a url distinct from `demoArticle1`. -/
def demoArticle2 : Article :=
  { url := "https://h/a2", title := "T2", content := "body two",
    metadata := [("title", "T2"), ("url", "https://h/a2"), ("source", "hc")] }

/-- C2: every chunk of an article records `total_chunks` equal to the number
of chunks produced, the `chunk_index` values are exactly 0..n-1 in order,
`chunk_id` is the article url ++ "#chunk-" ++ chunk_index, and consequently
chunk ids are pairwise distinct across any article list with pairwise
distinct urls. -/
theorem c2_chunk_metadata (splitText : String → List String) (article : Article)
    (articles : List Article) :
    (∀ c ∈ chunk_article splitText article,
        c.metadata.total_chunks = (chunk_article splitText article).length) ∧
    ((chunk_article splitText article).map (fun c => c.metadata.chunk_index)
        = List.range (chunk_article splitText article).length) ∧
    (∀ c ∈ chunk_article splitText article,
        c.metadata.chunk_id
          = article.url ++ "#chunk-" ++ toString c.metadata.chunk_index) ∧
    ((articles.map Article.url).Nodup →
        ((chunk_articles splitText articles).map (fun c => c.metadata.chunk_id)).Nodup) := by
  refine ⟨?_, ?_, ?_, ?_⟩
  · intro c hc
    simp only [chunk_article, List.mem_map] at hc
    obtain ⟨p, hp, rfl⟩ := hc
    simp [chunk_article, List.enum_length]
  · simp only [chunk_article, List.map_map, List.length_map, List.enum_length]
    exact List.enum_map_fst (splitText ("# " ++ article.title ++ "\n\n" ++ article.content))
  · intro c hc
    simp only [chunk_article, List.mem_map] at hc
    obtain ⟨p, hp, rfl⟩ := hc
    rfl
  · intro hnodup
    rw [show (chunk_articles splitText articles).map (fun c => c.metadata.chunk_id)
          = articles.flatMap
              (fun a => (chunk_article splitText a).map (fun c => c.metadata.chunk_id)) from
        List.map_flatMap _ _ _]
    rw [List.nodup_flatMap]
    constructor
    · intro a _
      rw [chunk_article_ids]
      exact List.Nodup.map (fun i j hij => (chunkId_inj hij).2) (List.nodup_range _)
    · have hpw : articles.Pairwise (fun a b => a.url ≠ b.url) :=
        List.pairwise_map.mp hnodup
      refine hpw.imp ?_
      intro a b hab x hxa hxb
      simp only [] at hxa hxb
      rw [chunk_article_ids] at hxa hxb
      obtain ⟨i, _, hxi⟩ := List.mem_map.mp hxa
      obtain ⟨j, _, hxj⟩ := List.mem_map.mp hxb
      exact hab (chunkId_inj (hxi.trans hxj.symm)).1

/-- Witness for C2: the distinct-urls hypothesis discharged on two concrete
articles with a concrete splitter. -/
theorem c2_chunk_metadata_witness :
    (([demoArticle1, demoArticle2].map Article.url).Nodup) ∧
    ((chunk_articles (fun s => [s, s]) [demoArticle1, demoArticle2]).map
        (fun c => c.metadata.chunk_id)).Nodup :=
  ⟨by decide,
    (c2_chunk_metadata (fun s => [s, s]) demoArticle1 [demoArticle1, demoArticle2]).2.2.2
      (by decide)⟩

/-- One entry of the context block built by `RAGEngine._format_context`:
the f-string with Python KeyError on a missing key, `title` read
before `text`. -/
def formatContextLine (i : Nat) (doc : RetrievedDoc) : Except PyExn String :=
  match doc.title with
  | none => .error (.keyError "title")
  | some t =>
    match doc.text with
    | none => .error (.keyError "text")
    | some x => .ok ("[Source " ++ toString i ++ "] " ++ t ++ "\n" ++ x ++ "\n")

/-- Model of `RAGEngine._format_context` (rag_engine.py lines 199-215): the per-document
parts, documents enumerated from 1, joined with a newline. -/
def format_context (docs : List RetrievedDoc) : Except PyExn String :=
  (docs.enum.mapM fun p => formatContextLine (p.1 + 1) p.2).map
    (String.intercalate "\n")

/-- A chat prompt: the system and user messages produced by
`prompt_template.format_messages(context=..., question=...)`. -/
structure Prompt where
  system : String
  user : String
deriving Repr, DecidableEq

/-- The `SYSTEM_PROMPT` template text up to its `context` placeholder, which
the template ends with (followed by one newline).  The prose is abridged
relative to the source constant; no claim depends on its wording. -/
def systemPromptPre : String :=
  "You are a helpful customer support assistant for Typeform. \nYour role is to answer questions about the Typeform Help Center articles accurately and concisely.\n\nContext from Help Center:\n"

/-- Model of `prompt_template.format_messages`: substitute the context into the system
template and the question into the user template (`USER_PROMPT`). -/
def formatMessages (context question : String) : Prompt :=
  { system := systemPromptPre ++ context ++ "\n"
    user := "Question: " ++ question
        ++ "\n\nPlease provide a helpful answer based on the context above." }

/-- The dict returned by `RAGEngine.generate`: `answer`, `query`,
`num_sources`, and optionally `sources` (`none` = key absent). -/
structure GenerateResult where
  answer : String
  query : String
  num_sources : Nat
  sources : Option (List Source) := none
deriving Repr, DecidableEq

/-- Model of `RAGEngine.generate` (rag_engine.py lines 120-164).  The chat model is the
external collaborator `llm`; the second component is the list of LLM
invocations performed. -/
def generate (llm : Prompt → String) (query : String)
    (context_docs : List RetrievedDoc) (include_sources : Bool) :
    Except PyExn GenerateResult × List Prompt :=
  match format_context context_docs with
  | .error e => (.error e, [])
  | .ok context =>
    let prompt := formatMessages context query
    let answer := llm prompt
    (.ok { answer := answer
           query := query
           num_sources := context_docs.length
           sources :=
             if include_sources then some (extract_sources context_docs) else none },
     [prompt])

/-- C3: with `include_sources = false` the response dict of `generate` carries
no `sources` key at all (`none`, not an empty list); with
`include_sources = true` the key is present (with the deduplicated sources). -/
theorem c3_include_sources_controls_field (llm : Prompt → String) (query : String)
    (context_docs : List RetrievedDoc) :
    (∀ r, (generate llm query context_docs false).1 = .ok r → r.sources = none) ∧
    (∀ r, (generate llm query context_docs true).1 = .ok r
        → r.sources = some (extract_sources context_docs)) := by
  cases hfc : format_context context_docs with
  | error e =>
    constructor <;> intro r hr <;> simp [generate, hfc] at hr
  | ok context =>
    constructor <;> intro r hr <;> simp [generate, hfc] at hr <;> simp [← hr]

/-- Witness for C3: both hypotheses discharged on a concrete engine run. -/
theorem c3_include_sources_witness :
    ({ answer := "demo answer", query := "q", num_sources := 0,
       sources := none } : GenerateResult).sources = none ∧
    ({ answer := "demo answer", query := "q", num_sources := 0,
       sources := some [] } : GenerateResult).sources = some (extract_sources []) :=
  ⟨(c3_include_sources_controls_field (fun _ => "demo answer") "q" []).1 _ rfl,
   (c3_include_sources_controls_field (fun _ => "demo answer") "q" []).2 _ rfl⟩

/-- C10: `generate` on an empty retrieval result does not fail: the context
block degenerates to the empty string, the LLM is still invoked (exactly once,
on the prompt built from that empty context), `num_sources` is 0, and with
`include_sources = true` the sources list is empty. -/
theorem c10_generate_empty_context (llm : Prompt → String) (query : String) :
    format_context [] = .ok "" ∧
    (∀ include_sources : Bool,
      generate llm query [] include_sources
        = (.ok { answer := llm (formatMessages "" query)
                 query := query
                 num_sources := 0
                 sources := if include_sources then some [] else none },
           [formatMessages "" query])) :=
  ⟨rfl, fun _ => rfl⟩

/-- The Pinecone client state of `VectorStore`: the handle `self.index` is
`None` until `create_index` connects it. -/
structure VectorStoreState where
  index_name : String
  index : Option Unit := none
deriving Repr, DecidableEq

/-- Model of `VectorStore.create_index` (vector_store.py lines 52-92): the provider
side (list/create/wait) carries no state we track; afterwards the handle is
connected. -/
def create_index (st : VectorStoreState) : VectorStoreState :=
  { st with index := some () }

/-- A record sent to the vector index provider (vector_store.py lines
112-123): id, embedding values and the flattened metadata fields. -/
structure VectorRecord where
  id : String
  values : Embedding
  text : String
  title : String
  url : String
  source : String
  chunk_index : Nat
  total_chunks : Nat
deriving Repr, DecidableEq

/-- Python dict indexing `d[k]` on the inherited article metadata:
KeyError when the key is absent. -/
def lookupKey (base : List (String × String)) (k : String) : Except PyExn String :=
  match base.lookup k with
  | some v => .ok v
  | none => .error (.keyError k)

/-- The record built for one chunk in `upsert_chunks` (direct dict indexing
`chunk["embedding"]`, `chunk["metadata"]["title"]`, ...). -/
def buildVector (chunk : Chunk) : Except PyExn VectorRecord := do
  let emb ← match chunk.embedding with
    | some e => Except.ok e
    | none => Except.error (PyExn.keyError "embedding")
  let title ← lookupKey chunk.metadata.base "title"
  let url ← lookupKey chunk.metadata.base "url"
  let source ← lookupKey chunk.metadata.base "source"
  return { id := chunk.metadata.chunk_id
           values := emb
           text := chunk.text
           title := title
           url := url
           source := source
           chunk_index := chunk.metadata.chunk_index
           total_chunks := chunk.metadata.total_chunks }

/-- The successive slices `vectors[i:i+batch_size]` taken by the upsert loop
(`range(0, len(vectors), batch_size)`); meaningful for a positive batch size
(`batch_size = 0` is rejected before this point, as Python `range` refuses a
zero step). -/
def batchesOf {α : Type} (bs : Nat) : List α → List (List α)
  | [] => []
  | x :: xs => (x :: xs.take (bs - 1)) :: batchesOf bs (xs.drop (bs - 1))
termination_by l => l.length
decreasing_by
  simp only [List.length_cons, List.length_drop]
  omega

/-- The statistics dict returned by `upsert_chunks`. -/
structure UpsertStats where
  total_upserted : Nat
  batches : Nat
deriving Repr, DecidableEq

/-- Model of `VectorStore.upsert_chunks` (vector_store.py lines 94-139): guard on the
handle, build all records, send them in sequential fixed-size batches,
accumulate the upserted count, and return the stats dict.  The second
component is the list of provider upsert calls (one entry per batch), in
order. -/
def upsert_chunks (st : VectorStoreState) (chunks : List Chunk)
    (batch_size : Nat := 100) : Except PyExn UpsertStats × List (List VectorRecord) :=
  if st.index.isNone then
    (.error (.valueError "Index not initialized. Call create_index() first."), [])
  else
    match chunks.mapM buildVector with
    | .error e => (.error e, [])
    | .ok vectors =>
      if batch_size = 0 then
        (.error (.valueError "range() arg 3 must not be zero"), [])
      else
        let batches := batchesOf batch_size vectors
        (.ok { total_upserted := (batches.map List.length).sum
               batches := (vectors.length + batch_size - 1) / batch_size },
         batches)

/-- A raw match returned by the provider query (`results.matches` entries). -/
structure MatchRec where
  id : String
  score : Score
  metadata : List (String × String)
deriving Repr, DecidableEq

/-- Python `match.metadata.get(key, "")`. -/
def metaGetD (md : List (String × String)) (k : String) : String :=
  (md.lookup k).getD ""

/-- Model of `VectorStore.search` (vector_store.py lines 141-187): guard, resolve
`top_k = top_k or settings.top_k_results` (Python treats both `None` and the
falsy `0` as unset), query the provider and format the matches.
`top_k_results` is the configured default and `queryFn` the provider; the
second component is the list of provider query calls `(vector, top_k)`. -/
def search (st : VectorStoreState) (query_embedding : Embedding)
    (top_k : Option Int) (top_k_results : Int)
    (queryFn : Embedding → Int → List MatchRec) :
    Except PyExn (List RetrievedDoc) × List (Embedding × Int) :=
  if st.index.isNone then
    (.error (.valueError "Index not initialized. Call create_index() first."), [])
  else
    let k := match top_k with
      | none => top_k_results
      | some v => if v = 0 then top_k_results else v
    let found := queryFn query_embedding k
    (.ok (found.map fun m =>
        { id := some m.id
          score := some m.score
          text := some (metaGetD m.metadata "text")
          title := some (metaGetD m.metadata "title")
          url := some (metaGetD m.metadata "url")
          metadata := some m.metadata }),
     [(query_embedding, k)])

/-- Model of `VectorStore.delete_all` (vector_store.py lines 189-196); the trace
records the provider delete call. -/
def delete_all (st : VectorStoreState) : Except PyExn Unit × List Unit :=
  if st.index.isNone then
    (.error (.valueError "Index not initialized. Call create_index() first."), [])
  else
    (.ok (), [()])

/-- Index statistics from the provider (`describe_index_stats`). -/
structure IndexStats where
  total_vector_count : Nat
  dimension : Nat
  index_fullness : Rat
deriving Repr, DecidableEq

/-- The dict returned by `VectorStore.get_stats`. -/
structure StatsOut where
  total_vectors : Nat
  dimension : Nat
  index_fullness : Rat
deriving Repr, DecidableEq

/-- Model of `VectorStore.get_stats` (vector_store.py lines 198-207); `statsFn` is the
provider call, recorded in the trace. -/
def get_stats (st : VectorStoreState) (statsFn : Unit → IndexStats) :
    Except PyExn StatsOut × List Unit :=
  if st.index.isNone then
    (.error (.valueError "Index not initialized. Call create_index() first."), [])
  else
    let s := statsFn ()
    (.ok { total_vectors := s.total_vector_count
           dimension := s.dimension
           index_fullness := s.index_fullness }, [()])

lemma batchesOf_eq_nil_iff {α : Type} (bs : Nat) (l : List α) :
    batchesOf bs l = [] ↔ l = [] := by
  cases l <;> simp [batchesOf]

lemma batchesOf_flatten {α : Type} (bs : Nat) (l : List α) :
    (batchesOf bs l).flatten = l := by
  induction l using batchesOf.induct bs with
  | case1 => simp [batchesOf]
  | case2 x xs ih =>
    rw [batchesOf, List.flatten_cons, ih, List.cons_append, List.take_append_drop]

lemma batchesOf_le {α : Type} (bs : Nat) (hbs : 0 < bs) (l : List α) :
    ∀ b ∈ batchesOf bs l, b.length ≤ bs := by
  induction l using batchesOf.induct bs with
  | case1 => simp [batchesOf]
  | case2 x xs ih =>
    intro b hb
    rw [batchesOf] at hb
    rcases List.mem_cons.mp hb with h | h
    · subst h
      simp only [List.length_cons, List.length_take]
      omega
    · exact ih b h

lemma batchesOf_dropLast {α : Type} (bs : Nat) (hbs : 0 < bs) (l : List α) :
    ∀ b ∈ (batchesOf bs l).dropLast, b.length = bs := by
  induction l using batchesOf.induct bs with
  | case1 => simp [batchesOf]
  | case2 x xs ih =>
    intro b hb
    rw [batchesOf] at hb
    by_cases hrest : batchesOf bs (xs.drop (bs - 1)) = []
    · simp [hrest] at hb
    · rw [List.dropLast_cons_of_ne_nil hrest] at hb
      rcases List.mem_cons.mp hb with h | h
      · subst h
        have hxs : xs.drop (bs - 1) ≠ [] := by
          intro hcon
          exact hrest ((batchesOf_eq_nil_iff bs _).mpr hcon)
        have hlen : bs - 1 ≤ xs.length := by
          by_contra hlt
          push_neg at hlt
          exact hxs (List.drop_eq_nil_of_le (le_of_lt hlt))
        simp only [List.length_cons, List.length_take]
        omega
      · exact ih b h

lemma batchesOf_length {α : Type} (bs : Nat) (hbs : 0 < bs) (l : List α) :
    (batchesOf bs l).length = (l.length + bs - 1) / bs := by
  induction l using batchesOf.induct bs with
  | case1 =>
    simp only [batchesOf, List.length_nil]
    rw [Nat.div_eq_of_lt (by omega)]
  | case2 x xs ih =>
    rw [batchesOf, List.length_cons, ih, List.length_drop, List.length_cons]
    have hr : xs.length + 1 + bs - 1 = xs.length + bs := by omega
    rw [hr, Nat.add_div_right _ hbs]
    by_cases hc : bs - 1 ≤ xs.length
    · have h1 : xs.length - (bs - 1) + bs - 1 = xs.length := by omega
      rw [h1]
    · push_neg at hc
      have h1 : xs.length - (bs - 1) + bs - 1 = bs - 1 := by omega
      rw [h1, Nat.div_eq_of_lt (by omega), Nat.div_eq_of_lt (by omega)]

lemma exceptBind_ok {ε α β : Type} (a : α) (g : α → Except ε β) :
    ((Except.ok a : Except ε α) >>= g) = g a := rfl

lemma exceptBind_error {ε α β : Type} (e : ε) (g : α → Except ε β) :
    ((Except.error e : Except ε α) >>= g) = Except.error e := rfl

lemma exceptMap_ok {ε α β : Type} (g : α → β) (a : α) :
    (g <$> (Except.ok a : Except ε α)) = Except.ok (g a) := rfl

lemma exceptMap_error {ε α β : Type} (g : α → β) (e : ε) :
    (g <$> (Except.error e : Except ε α)) = Except.error e := rfl

lemma mapM_ok_length {α β : Type} (f : α → Except PyExn β) :
    ∀ (l : List α) (l' : List β), l.mapM f = .ok l' → l'.length = l.length := by
  intro l
  induction l with
  | nil =>
    intro l' h
    have h' : (Except.ok ([] : List β) : Except PyExn (List β)) = Except.ok l' := h
    cases h'
    rfl
  | cons a l ih =>
    intro l' h
    rw [List.mapM_cons] at h
    cases hfa : f a with
    | error e =>
      simp only [hfa, exceptBind_error] at h
      cases h
    | ok b =>
      simp only [hfa, exceptBind_ok] at h
      cases hml : l.mapM f with
      | error e =>
        simp only [hml, exceptBind_error, exceptMap_error] at h
        cases h
      | ok bs =>
        simp only [hml, exceptBind_ok, exceptMap_ok, pure, Except.pure,
          Except.ok.injEq] at h
        rw [← h, List.length_cons, List.length_cons, ih bs hml]

/-- A demo embedded chunk with full metadata, for concrete instantiations. -/
def demoChunk : Chunk :=
  { text := "# T1\n\nbody one"
    metadata :=
      { base := demoArticle1.metadata
        chunk_index := 0
        total_chunks := 1
        chunk_id := chunkId demoArticle1.url 0 }
    embedding := some [1, 0] }

/-- C4 counterexample: on a store whose index was never created,
`upsert_chunks` raises the built-in `ValueError`, which is not an instance of
the `exceptions.py` base class `RAGSystemException` — so it is not the claimed
`ConfigurationError` of the typed taxonomy. -/
theorem c4_counterexample :
    (upsert_chunks { index_name := "typeform-help-center", index := none }
        [demoChunk] 100).1
      = .error (.valueError "Index not initialized. Call create_index() first.")
    ∧ (PyExn.valueError
        "Index not initialized. Call create_index() first.").isRAGSystemException
      = false :=
  ⟨rfl, rfl⟩

/-- C4 (amended): before `create_index` each of `upsert_chunks`, `search`,
`delete_all` and `get_stats` fails with the built-in
`ValueError("Index not initialized. Call create_index() first.")` — a plain
`ValueError`, not a `ConfigurationError` of the typed error taxonomy (which
the code defines but never raises) — and performs no provider call. -/
theorem c4_uninitialized_ops_fail (st : VectorStoreState) (h : st.index = none)
    (chunks : List Chunk) (bs : Nat) (emb : Embedding) (tk : Option Int)
    (tkr : Int) (qf : Embedding → Int → List MatchRec) (sf : Unit → IndexStats) :
    upsert_chunks st chunks bs
        = (.error (.valueError "Index not initialized. Call create_index() first."), [])
    ∧ search st emb tk tkr qf
        = (.error (.valueError "Index not initialized. Call create_index() first."), [])
    ∧ delete_all st
        = (.error (.valueError "Index not initialized. Call create_index() first."), [])
    ∧ get_stats st sf
        = (.error (.valueError "Index not initialized. Call create_index() first."), []) := by
  have hnone : st.index.isNone = true := by simp [h]
  exact ⟨by simp [upsert_chunks, hnone], by simp [search, hnone],
    by simp [delete_all, hnone], by simp [get_stats, hnone]⟩

/-- Witness for C4 (amended): the uninitialized-state hypothesis discharged
on a concrete store. -/
theorem c4_uninitialized_ops_fail_witness :
    ({ index_name := "typeform-help-center", index := none } : VectorStoreState).index
      = none
    ∧ delete_all { index_name := "typeform-help-center", index := none }
        = (.error (.valueError "Index not initialized. Call create_index() first."), []) :=
  ⟨rfl,
    (c4_uninitialized_ops_fail { index_name := "typeform-help-center", index := none }
      rfl [] 100 [] none 3 (fun _ _ => []) (fun _ => ⟨0, 0, 0⟩)).2.2.1⟩

/-- C6: on an initialized store with well-formed embedded chunks and a
positive batch size, `upsert_chunks` sends the records sequentially in
batches — their concatenation is exactly the record list in order, every
batch has at most `batch_size` records and every batch except possibly the
last exactly `batch_size` — and returns `total_upserted` equal to the number
of chunks and `batches` equal to ⌈chunks / batch_size⌉, which is also the
number of provider calls made. -/
theorem c6_upsert_batches (st : VectorStoreState) (chunks : List Chunk)
    (batch_size : Nat) (vectors : List VectorRecord)
    (hst : st.index = some ()) (hbs : 0 < batch_size)
    (hvec : chunks.mapM buildVector = .ok vectors) :
    (upsert_chunks st chunks batch_size).1
        = .ok { total_upserted := chunks.length
                batches := (chunks.length + batch_size - 1) / batch_size }
    ∧ ((upsert_chunks st chunks batch_size).2).flatten = vectors
    ∧ (∀ b ∈ (upsert_chunks st chunks batch_size).2, b.length ≤ batch_size)
    ∧ (∀ b ∈ ((upsert_chunks st chunks batch_size).2).dropLast,
        b.length = batch_size)
    ∧ ((upsert_chunks st chunks batch_size).2).length
        = (chunks.length + batch_size - 1) / batch_size := by
  have hnone : st.index.isNone = false := by simp [hst]
  have hlen : vectors.length = chunks.length := mapM_ok_length buildVector chunks vectors hvec
  have hups : upsert_chunks st chunks batch_size
      = (.ok { total_upserted := ((batchesOf batch_size vectors).map List.length).sum
               batches := (vectors.length + batch_size - 1) / batch_size },
         batchesOf batch_size vectors) := by
    simp only [upsert_chunks, hnone, Bool.false_eq_true, if_false, hvec]
    rw [if_neg hbs.ne']
  rw [hups]
  refine ⟨?_, batchesOf_flatten batch_size vectors,
    batchesOf_le batch_size hbs vectors, batchesOf_dropLast batch_size hbs vectors,
    by rw [batchesOf_length batch_size hbs vectors, hlen]⟩
  have hsum : ((batchesOf batch_size vectors).map List.length).sum = vectors.length := by
    rw [← List.length_flatten, batchesOf_flatten]
  rw [hsum, hlen]

/-- Witness for C6: all hypotheses discharged on one concrete upsert. -/
theorem c6_upsert_batches_witness :
    (create_index { index_name := "typeform-help-center" }).index = some ()
    ∧ (upsert_chunks (create_index { index_name := "typeform-help-center" })
        [demoChunk] 100).1
      = .ok { total_upserted := 1, batches := 1 } := by
  refine ⟨rfl, ?_⟩
  have h := (c6_upsert_batches (create_index { index_name := "typeform-help-center" })
    [demoChunk] 100 _ rfl (by omega) (by rfl)).1
  simpa using h

/-- C8: on an initialized store, `search` called with `top_k = 0` behaves
exactly like `search` with `top_k` unset — the falsy 0 resolves to the
configured `top_k_results` default, which is what the single provider query
is issued with. -/
theorem c8_search_topk_zero (st : VectorStoreState) (hst : st.index = some ())
    (emb : Embedding) (tkr : Int) (qf : Embedding → Int → List MatchRec) :
    search st emb (some 0) tkr qf = search st emb none tkr qf
    ∧ (search st emb (some 0) tkr qf).2 = [(emb, tkr)] := by
  have hnone : st.index.isNone = false := by simp [hst]
  exact ⟨by simp [search, hnone], by simp [search, hnone]⟩

/-- Witness for C8: the initialized-store hypothesis discharged concretely. -/
theorem c8_search_topk_zero_witness :
    (create_index { index_name := "typeform-help-center" }).index = some ()
    ∧ search (create_index { index_name := "typeform-help-center" }) [1, 0] (some 0) 3
        (fun _ _ => [])
      = search (create_index { index_name := "typeform-help-center" }) [1, 0] none 3
        (fun _ _ => []) :=
  ⟨rfl,
    (c8_search_topk_zero (create_index { index_name := "typeform-help-center" })
      rfl [1, 0] 3 (fun _ _ => [])).1⟩

/-- C9: on an initialized store, upserting the empty chunk list performs no
provider call and returns `{total_upserted: 0, batches: 0}`. -/
theorem c9_upsert_empty (st : VectorStoreState) (hst : st.index = some ())
    (bs : Nat) (hbs : 0 < bs) :
    upsert_chunks st [] bs = (.ok { total_upserted := 0, batches := 0 }, []) := by
  have hnone : st.index.isNone = false := by simp [hst]
  have hdiv : (0 + bs - 1) / bs = 0 := Nat.div_eq_of_lt (by omega)
  have hmapM : ([] : List Chunk).mapM buildVector = .ok [] := rfl
  simp only [upsert_chunks, hnone, Bool.false_eq_true, if_false, hmapM]
  rw [if_neg hbs.ne']
  simp only [batchesOf, List.map_nil, List.sum_nil, List.length_nil, hdiv]

/-- Witness for C9: hypotheses discharged at the default batch size. -/
theorem c9_upsert_empty_witness :
    (create_index { index_name := "typeform-help-center" }).index = some ()
    ∧ upsert_chunks (create_index { index_name := "typeform-help-center" }) [] 100
      = (.ok { total_upserted := 0, batches := 0 }, []) :=
  ⟨rfl,
    c9_upsert_empty (create_index { index_name := "typeform-help-center" })
      rfl 100 (by omega)⟩

/-- The in-place `zip` assignment of `generate_embeddings`
(`for chunk, embedding in zip(chunks, embeddings): chunk["embedding"] = ...`):
pairs up to the shorter list get embeddings, any remaining chunks are
returned unchanged. -/
def assignEmbeddings : List Chunk → List Embedding → List Chunk
  | cs, [] => cs
  | [], _ => []
  | c :: cs, e :: es => { c with embedding := some e } :: assignEmbeddings cs es

/-- Model of `DocumentProcessor.generate_embeddings` (document_processor.py lines
129-162): one batched provider call over all chunk texts
(`embed_documents(texts)`); on provider failure the original exception is
re-raised (`except Exception as e: ... raise`); on success the embeddings are
zipped onto the chunks.  The second component is the list of provider
calls. -/
def generate_embeddings (provider : List String → Except PyExn (List Embedding))
    (chunks : List Chunk) : Except PyExn (List Chunk) × List (List String) :=
  let texts := chunks.map Chunk.text
  match provider texts with
  | .error e => (.error e, [texts])
  | .ok embs => (.ok (assignEmbeddings chunks embs), [texts])

lemma assignEmbeddings_text :
    ∀ (cs : List Chunk) (es : List Embedding),
      (assignEmbeddings cs es).map Chunk.text = cs.map Chunk.text := by
  intro cs
  induction cs with
  | nil => intro es; cases es <;> rfl
  | cons c cs ih =>
    intro es
    cases es with
    | nil => rfl
    | cons e es => simp [assignEmbeddings, ih]

lemma assignEmbeddings_metadata :
    ∀ (cs : List Chunk) (es : List Embedding),
      (assignEmbeddings cs es).map Chunk.metadata = cs.map Chunk.metadata := by
  intro cs
  induction cs with
  | nil => intro es; cases es <;> rfl
  | cons c cs ih =>
    intro es
    cases es with
    | nil => rfl
    | cons e es => simp [assignEmbeddings, ih]

lemma assignEmbeddings_embedding :
    ∀ (cs : List Chunk) (es : List Embedding), es.length = cs.length →
      (assignEmbeddings cs es).map Chunk.embedding = es.map some := by
  intro cs
  induction cs with
  | nil =>
    intro es hlen
    rw [List.length_nil, List.length_eq_zero] at hlen
    subst hlen
    rfl
  | cons c cs ih =>
    intro es hlen
    cases es with
    | nil => simp at hlen
    | cons e es =>
      simp only [List.length_cons] at hlen
      simp [assignEmbeddings, ih es (by omega)]

/-- C5 counterexample: when the provider call fails, `generate_embeddings`
re-raises the exception of the provider unchanged — the caller receives no
`EmbeddingException` of the `exceptions.py` taxonomy (the claimed
EmbeddingFailure signal), and `isRAGSystemException` is false for it. -/
theorem c5_counterexample :
    (generate_embeddings (fun _ => .error (.providerError "rate limited"))
        [demoChunk]).1
      = .error (.providerError "rate limited")
    ∧ (PyExn.providerError "rate limited").isRAGSystemException = false :=
  ⟨rfl, rfl⟩

/-- C5 (amended): `generate_embeddings` makes exactly one provider call,
carrying all chunk texts in order; if the provider fails, its
original exception propagates unchanged (no `EmbeddingException` wrapping)
and no chunk output is produced — the failure is atomic; on success with one
embedding per text, every chunk carries its embedding, in order, with text
and metadata unchanged. -/
theorem c5_generate_embeddings
    (provider : List String → Except PyExn (List Embedding)) (chunks : List Chunk) :
    (generate_embeddings provider chunks).2 = [chunks.map Chunk.text]
    ∧ (∀ e, provider (chunks.map Chunk.text) = .error e →
        (generate_embeddings provider chunks).1 = .error e)
    ∧ (∀ embs, provider (chunks.map Chunk.text) = .ok embs →
        embs.length = chunks.length →
        (generate_embeddings provider chunks).1 = .ok (assignEmbeddings chunks embs)
        ∧ (assignEmbeddings chunks embs).map Chunk.embedding = embs.map some
        ∧ (assignEmbeddings chunks embs).map Chunk.text = chunks.map Chunk.text
        ∧ (assignEmbeddings chunks embs).map Chunk.metadata
            = chunks.map Chunk.metadata) := by
  refine ⟨?_, ?_, ?_⟩
  · cases hp : provider (chunks.map Chunk.text) <;>
      simp [generate_embeddings, hp]
  · intro e hp
    simp [generate_embeddings, hp]
  · intro embs hp hlen
    exact ⟨by simp [generate_embeddings, hp],
      assignEmbeddings_embedding chunks embs hlen,
      assignEmbeddings_text chunks embs,
      assignEmbeddings_metadata chunks embs⟩

/-- Witness for C5 (amended): the provider-error and provider-success
hypotheses discharged on concrete providers. -/
theorem c5_generate_embeddings_witness :
    (generate_embeddings (fun _ => .error (.providerError "boom")) [demoChunk]).1
      = .error (.providerError "boom")
    ∧ (generate_embeddings (fun ts => .ok (ts.map (fun _ => [1, 0]))) [demoChunk]).1
      = .ok (assignEmbeddings [demoChunk] [[1, 0]]) :=
  ⟨(c5_generate_embeddings (fun _ => .error (.providerError "boom")) [demoChunk]).2.1
      (.providerError "boom") rfl,
    ((c5_generate_embeddings (fun ts => .ok (ts.map (fun _ => [1, 0])))
        [demoChunk]).2.2 [[1, 0]] rfl rfl).1⟩

/-- An `HTTPException` raised by a request guard. -/
structure HTTPError where
  status_code : Nat
  detail : String
deriving Repr, DecidableEq

/-- Model of `require_admin` (main.py lines 44-50): with a configured (non-empty,
hence truthy) `settings.admin_token`, reject with 401 unless the
`X-Admin-Token` header matches; with no token configured, allow everything.
`none` models a missing header. -/
def require_admin (admin_token : String) (x_admin_token : Option String) :
    Except HTTPError Unit :=
  if admin_token ≠ "" ∧ x_admin_token ≠ some admin_token then
    .error { status_code := 401, detail := "Invalid admin token" }
  else
    .ok ()

/-- C7: with no admin token configured every request is allowed regardless of
the header; with a token configured, the request is rejected with 401 exactly
when the header is missing or differs from the token, and allowed when it
matches. -/
theorem c7_require_admin (admin_token : String) (hdr : Option String) :
    (admin_token = "" → require_admin admin_token hdr = .ok ())
    ∧ (admin_token ≠ "" →
        ((require_admin admin_token hdr
            = .error { status_code := 401, detail := "Invalid admin token" })
          ↔ hdr ≠ some admin_token)
        ∧ (hdr = some admin_token → require_admin admin_token hdr = .ok ())) := by
  constructor
  · intro hempty
    simp [require_admin, hempty]
  · intro hne
    constructor
    · by_cases hh : hdr = some admin_token <;> simp [require_admin, hne, hh]
    · intro hh
      simp [require_admin, hh]

/-- Witness for C7: all three hypotheses discharged on concrete tokens and
headers. -/
theorem c7_require_admin_witness :
    require_admin "" (some "anything") = .ok ()
    ∧ require_admin "secret" none
        = .error { status_code := 401, detail := "Invalid admin token" }
    ∧ require_admin "secret" (some "secret") = .ok () :=
  ⟨(c7_require_admin "" (some "anything")).1 rfl,
    ((c7_require_admin "secret" none).2 (by decide)).1.mpr (by decide),
    ((c7_require_admin "secret" (some "secret")).2 (by decide)).2 rfl⟩

end RAG
